import Mathlib

/-!
Verification of the OAuth example applications (a Twitter-style web server
and a Plurk CLI) against their specification.  The embedding below models
the credential store, the three-legged authorization flow handlers, the
response decoding of the signed API client, and the CLI credential
persistence logic.  Calls into the external OAuth signing library
(RequestTemporaryCredentials, RequestToken, AuthorizationURL) are treated
as black-box collaborators and passed in as parameters, as the spec
directs.
-/

namespace OAuthDemo

/-- Credentials is a (token, secret) pair of opaque strings, mirroring
oauth.Credentials from the external library. -/
structure Credentials where
  token : String
  secret : String
deriving DecidableEq, Repr

/-- The in-memory credential store, mirroring the Go map
secrets : map[string]string keyed by token.  A Go map is a finite partial
function from keys to values; we embed it as such. -/
def Store : Type := String → Option String

/-- The empty store, mirroring the initializer secrets = map[string]string\x7b\x7d. -/
def Store.empty : Store := fun _ => none

/-- putCredentials mirrors secrets[cred.Token] = cred.Secret. -/
def putCredentials (s : Store) (cred : Credentials) : Store :=
  fun t => if t = cred.token then some cred.secret else s t

/-- getCredentials mirrors the lookup: if secret, ok := secrets[token]
then return the pair (token, secret), else nil. -/
def getCredentials (s : Store) (token : String) : Option Credentials :=
  match s token with
  | some secret => some ⟨token, secret⟩
  | none => none

/-- deleteCredentials mirrors delete(secrets, token). -/
def deleteCredentials (s : Store) (token : String) : Store :=
  fun t => if t = token then none else s t

/-- Server-side mutable state relevant to the flow: the shared credential
store, the auth cookie of the session under consideration, and the
process-wide consumer credentials (oauthClient.Credentials, filled in by
readCredentials at startup). -/
structure ServerState where
  store : Store
  cookie : Option String
  consumer : Credentials

/-- Outcome of serveSignin / serveAuthorize as visible to the HTTP client. -/
inductive BeginResult where
  | httpError (msg : String)
  | redirect (url : String)
deriving DecidableEq, Repr

/-- Common body of serveSignin and serveAuthorize: request temporary
credentials from the external signer (passed in as requestTemp, the result
of RequestTemporaryCredentials), on error report it with no further effect,
on success store the temporary credentials and redirect to the
authorization URL produced by the respective client (authURL models
AuthorizationURL of the client used by the entry point). -/
def serveBegin (requestTemp : Except String Credentials)
    (authURL : Credentials → String) (st : ServerState) :
    ServerState × BeginResult :=
  match requestTemp with
  | Except.error e => (st, BeginResult.httpError ("Error getting temp cred, " ++ e))
  | Except.ok tempCred =>
      ({ st with store := putCredentials st.store tempCred },
       BeginResult.redirect (authURL tempCred))

/-- serveSignin: begin entry point using signinOAuthClient's authorization
URL (the authenticate endpoint). -/
def serveSignin (requestTemp : Except String Credentials)
    (signinAuthURL : Credentials → String) (st : ServerState) :
    ServerState × BeginResult :=
  serveBegin requestTemp signinAuthURL st

/-- serveAuthorize: begin entry point using oauthClient's authorization URL
(the authorize endpoint). -/
def serveAuthorize (requestTemp : Except String Credentials)
    (authorizeAuthURL : Credentials → String) (st : ServerState) :
    ServerState × BeginResult :=
  serveBegin requestTemp authorizeAuthURL st

/-- Outcome of serveOAuthCallback as visible to the HTTP client. -/
inductive CallbackResult where
  | unknownToken
  | upstreamError (msg : String)
  | redirectHome
deriving DecidableEq, Repr

/-- serveOAuthCallback: look up the pending temporary credential by the
oauth_token form value (UnknownToken error if absent), delete it from the
store, then exchange it together with the oauth_verifier for access
credentials via the external signer (exchange models
oauthClient.RequestToken); on exchange failure report the error, on success
store the access credentials and set the auth cookie. -/
def serveOAuthCallback (exchange : Credentials → String → Except String Credentials)
    (st : ServerState) (oauthToken oauthVerifier : String) :
    ServerState × CallbackResult :=
  match getCredentials st.store oauthToken with
  | none => (st, CallbackResult.unknownToken)
  | some tempCred =>
      let store1 := deleteCredentials st.store tempCred.token
      match exchange tempCred oauthVerifier with
      | Except.error e =>
          ({ st with store := store1 },
           CallbackResult.upstreamError ("Error getting request token, " ++ e))
      | Except.ok tokenCred =>
          ({ st with store := putCredentials store1 tokenCred,
                     cookie := some tokenCred.token },
           CallbackResult.redirectHome)

/-- serveLogout: sets the auth cookie to an expired value (MaxAge -1), so
the session no longer carries a token; nothing else is touched. -/
def serveLogout (st : ServerState) : ServerState :=
  { st with cookie := none }

/-- authHandler's credential resolution: read the auth cookie and look its
value up in the store. -/
def authHandlerLookup (st : ServerState) : Option Credentials :=
  match st.cookie with
  | some v => getCredentials st.store v
  | none => none

/-- Generic JSON value, the schema-less tree Go's encoding/json decodes
into for a map[string]interface\x7b\x7d target.  Numbers keep their source
lexeme since no claim inspects numeric values. -/
inductive Json where
  | null : Json
  | bool (b : Bool) : Json
  | num (lexeme : String) : Json
  | str (s : String) : Json
  | arr (elems : List Json) : Json
  | obj (fields : List (String × Json)) : Json

/-- skipWs drops leading JSON whitespace. -/
def skipWs : List Char → List Char
  | c :: cs =>
      if c = ' ' ∨ c = '\t' ∨ c = '\n' ∨ c = '\r' then skipWs cs else c :: cs
  | [] => []

/-- parseStringBody parses the body of a JSON string after the opening
quote, handling the common escapes; returns the string and the remainder. -/
def parseStringBody : List Char → List Char → Option (String × List Char)
  | acc, '"' :: rest => some (String.mk acc.reverse, rest)
  | acc, '\\' :: '"' :: rest => parseStringBody ('"' :: acc) rest
  | acc, '\\' :: '\\' :: rest => parseStringBody ('\\' :: acc) rest
  | acc, '\\' :: '/' :: rest => parseStringBody ('/' :: acc) rest
  | acc, '\\' :: 'n' :: rest => parseStringBody ('\n' :: acc) rest
  | acc, '\\' :: 't' :: rest => parseStringBody ('\t' :: acc) rest
  | acc, '\\' :: 'r' :: rest => parseStringBody ('\r' :: acc) rest
  | _, '\\' :: _ => none
  | acc, c :: rest => parseStringBody (c :: acc) rest
  | _, [] => none

/-- takeDigits splits off a maximal run of decimal digits. -/
def takeDigits : List Char → List Char × List Char
  | c :: cs =>
      if '0' ≤ c ∧ c ≤ '9' then
        let (ds, r) := takeDigits cs
        (c :: ds, r)
      else ([], c :: cs)
  | [] => ([], [])

/-- parseFrac parses an optional fractional part of a JSON number. -/
def parseFrac : List Char → Option (List Char × List Char)
  | '.' :: r =>
      match takeDigits r with
      | ([], _) => none
      | (ds, rest) => some ('.' :: ds, rest)
  | cs => some ([], cs)

/-- parseExp parses an optional exponent part of a JSON number. -/
def parseExp : List Char → Option (List Char × List Char)
  | c :: r =>
      if c = 'e' ∨ c = 'E' then
        let (sgn, r1) :=
          match r with
          | '+' :: rr => (['+'], rr)
          | '-' :: rr => (['-'], rr)
          | _ => (([] : List Char), r)
        match takeDigits r1 with
        | ([], _) => none
        | (ds, rest) => some (c :: (sgn ++ ds), rest)
      else some ([], c :: r)
  | [] => some ([], [])

/-- parseNumberTok parses a JSON number token, keeping its lexeme. -/
def parseNumberTok (cs : List Char) : Option (Json × List Char) :=
  let (neg, cs1) :=
    match cs with
    | '-' :: r => (['-'], r)
    | _ => (([] : List Char), cs)
  match takeDigits cs1 with
  | ([], _) => none
  | (ds, rest) =>
      match parseFrac rest with
      | none => none
      | some (fr, rest2) =>
          match parseExp rest2 with
          | none => none
          | some (ex, rest3) =>
              some (Json.num (String.mk (neg ++ ds ++ fr ++ ex)), rest3)

mutual

/-- parseValue parses one JSON value from the front of the input, fuelled. -/
def parseValue : Nat → List Char → Option (Json × List Char)
  | 0, _ => none
  | fuel + 1, cs =>
      match skipWs cs with
      | '"' :: rest =>
          match parseStringBody [] rest with
          | some (s, r) => some (Json.str s, r)
          | none => none
      | '\x7b' :: rest =>
          match skipWs rest with
          | '\x7d' :: r => some (Json.obj [], r)
          | r => parseMembers fuel r []
      | '[' :: rest =>
          match skipWs rest with
          | ']' :: r => some (Json.arr [], r)
          | r => parseElements fuel r []
      | 't' :: 'r' :: 'u' :: 'e' :: r => some (Json.bool true, r)
      | 'f' :: 'a' :: 'l' :: 's' :: 'e' :: r => some (Json.bool false, r)
      | 'n' :: 'u' :: 'l' :: 'l' :: r => some (Json.null, r)
      | r => parseNumberTok r

/-- parseMembers parses the members of a JSON object after its opening
brace (nonempty case), fuelled. -/
def parseMembers : Nat → List Char → List (String × Json) → Option (Json × List Char)
  | 0, _, _ => none
  | fuel + 1, cs, acc =>
      match skipWs cs with
      | '"' :: rest =>
          match parseStringBody [] rest with
          | some (key, r1) =>
              match skipWs r1 with
              | ':' :: r2 =>
                  match parseValue fuel r2 with
                  | some (v, r3) =>
                      match skipWs r3 with
                      | ',' :: r4 => parseMembers fuel r4 (acc ++ [(key, v)])
                      | '\x7d' :: r4 => some (Json.obj (acc ++ [(key, v)]), r4)
                      | _ => none
                  | none => none
              | _ => none
          | none => none
      | _ => none

/-- parseElements parses the elements of a JSON array after its opening
bracket (nonempty case), fuelled. -/
def parseElements : Nat → List Char → List Json → Option (Json × List Char)
  | 0, _, _ => none
  | fuel + 1, cs, acc =>
      match parseValue fuel cs with
      | some (v, r1) =>
          match skipWs r1 with
          | ',' :: r2 => parseElements fuel r2 (acc ++ [v])
          | ']' :: r2 => some (Json.arr (acc ++ [v]), r2)
          | _ => none
      | none => none

end

/-- jsonDecode models a single json.Decoder.Decode call reading one JSON
value from the front of the body (a single Decode does not reject trailing
data); none models the decoder returning a syntax error. -/
def jsonDecode (s : String) : Option Json :=
  match parseValue (2 * s.length + 2) s.data with
  | some (j, _) => some j
  | none => none

/-- An HTTP response as seen by the decoding layer: the request URL, the
status code and the already-read body. -/
structure Response where
  url : String
  status : Nat
  body : String
deriving DecidableEq, Repr

/-- Outcome of decodeResponse. -/
inductive DecodeResult where
  | ok (data : Json)
  | httpStatusError (msg : String)
  | decodeError

/-- httpStatusErrMsg is the error string built by decodeResponse's
fmt.Errorf for a non-200 response. -/
def httpStatusErrMsg (url : String) (status : Nat) (body : String) : String :=
  "Get " ++ url ++ " returned status " ++ toString status ++ ", " ++ body

/-- decodeResponse (twitter example): on a non-200 status return an error
carrying the URL, status and body; otherwise decode the body as JSON. -/
def decodeResponse (resp : Response) : DecodeResult :=
  if resp.status ≠ 200 then
    DecodeResult.httpStatusError (httpStatusErrMsg resp.url resp.status resp.body)
  else
    match jsonDecode resp.body with
    | some j => DecodeResult.ok j
    | none => DecodeResult.decodeError

/-- Response-handling tail of callAPI_ (plurk example): after the signed
POST returns, a non-200 status yields fmt.Errorf("%s", string(body)) — an
error whose message is exactly the body — and a 200 status yields the raw
body with no JSON decoding. -/
def callAPIResult (resp : Response) : Except String String :=
  if resp.status ≠ 200 then Except.error resp.body
  else Except.ok resp.body

/-- listStarts needle hay: needle is an initial segment of hay. -/
def listStarts : List Char → List Char → Bool
  | [], _ => true
  | _ :: _, [] => false
  | a :: as, b :: bs => a == b && listStarts as bs

/-- listHasSub needle hay: needle occurs contiguously somewhere in hay. -/
def listHasSub (needle : List Char) : List Char → Bool
  | [] => needle.isEmpty
  | c :: cs => listStarts needle (c :: cs) || listHasSub needle cs

/-- containsSub needle hay: needle occurs as a substring of hay. -/
def containsSub (needle hay : String) : Bool :=
  listHasSub needle.data hay.data

/-- C2: credential store round-trip.  get after put returns the inserted
pair; put at a different token and delete of a different token leave a
lookup unchanged (so the pair persists until its own delete or overwrite);
a second put with the same token overwrites, so get returns the newer pair;
get after delete is not-found; and delete of an absent token is a no-op. -/
theorem store_roundtrip :
    (∀ (s : Store) (c : Credentials), getCredentials (putCredentials s c) c.token = some c)
    ∧ (∀ (s : Store) (c : Credentials) (t : String), t ≠ c.token →
        getCredentials (putCredentials s c) t = getCredentials s t)
    ∧ (∀ (s : Store) (c c' : Credentials), c'.token = c.token →
        getCredentials (putCredentials (putCredentials s c) c') c.token = some c')
    ∧ (∀ (s : Store) (t : String), getCredentials (deleteCredentials s t) t = none)
    ∧ (∀ (s : Store) (t t' : String), t ≠ t' →
        getCredentials (deleteCredentials s t') t = getCredentials s t)
    ∧ (∀ (s : Store) (t : String), getCredentials s t = none → deleteCredentials s t = s) := by
  refine ⟨?_, ?_, ?_, ?_, ?_, ?_⟩
  · intro s c
    simp [getCredentials, putCredentials]
  · intro s c t ht
    simp [getCredentials, putCredentials, ht]
  · intro s c c' h
    simp [getCredentials, putCredentials, ← h]
  · intro s t
    simp [getCredentials, deleteCredentials]
  · intro s t t' ht
    simp [getCredentials, deleteCredentials, ht]
  · intro s t h
    funext t'
    by_cases ht : t' = t
    · subst ht
      simp only [deleteCredentials, if_pos rfl]
      unfold getCredentials at h
      cases hst : s t' with
      | none => rfl
      | some sec => rw [hst] at h; simp at h
    · simp [deleteCredentials, ht]

/-- Witness for store_roundtrip at concrete inputs. -/
theorem store_roundtrip_witness :
    getCredentials (putCredentials Store.empty ⟨"T", "S"⟩) "T" = some ⟨"T", "S"⟩
    ∧ getCredentials (putCredentials (putCredentials Store.empty ⟨"T", "S"⟩) ⟨"T", "S2"⟩) "T"
        = some ⟨"T", "S2"⟩
    ∧ getCredentials (deleteCredentials (putCredentials Store.empty ⟨"T", "S"⟩) "T") "T" = none
    ∧ getCredentials (putCredentials Store.empty ⟨"T", "S"⟩) "U"
        = getCredentials Store.empty "U"
    ∧ deleteCredentials Store.empty "T" = Store.empty :=
  ⟨store_roundtrip.1 Store.empty ⟨"T", "S"⟩,
   store_roundtrip.2.2.1 Store.empty ⟨"T", "S"⟩ ⟨"T", "S2"⟩ rfl,
   store_roundtrip.2.2.2.1 (putCredentials Store.empty ⟨"T", "S"⟩) "T",
   store_roundtrip.2.1 Store.empty ⟨"T", "S"⟩ "U" (by decide),
   store_roundtrip.2.2.2.2.2 Store.empty "T" rfl⟩

/-- C5: begin atomicity.  When the temporary-credential request fails, both
begin entry points report the error to the caller and return the state
unchanged: nothing is inserted into the store and the flow stays
unauthorized. -/
theorem begin_failure_atomic (e : String) (signinAuthURL authorizeAuthURL : Credentials → String)
    (st : ServerState) :
    serveSignin (Except.error e) signinAuthURL st
      = (st, BeginResult.httpError ("Error getting temp cred, " ++ e))
    ∧ serveAuthorize (Except.error e) authorizeAuthURL st
      = (st, BeginResult.httpError ("Error getting temp cred, " ++ e)) :=
  ⟨rfl, rfl⟩

/-- Counterexample to C4 as stated: a session holds access credentials
(token "A") in the store and the auth cookie; after serveLogout the
credentials are still resolvable by lookup in the store, contradicting the
claim that they are discarded from wherever they are held. -/
theorem serveLogout_counterexample :
    getCredentials
        (serveLogout ⟨putCredentials Store.empty ⟨"A", "S"⟩, some "A", ⟨"ck", "cs"⟩⟩).store "A"
      = some ⟨"A", "S"⟩ := by
  simp [serveLogout, getCredentials, putCredentials]

/-- C4 amended: serveLogout only clears the auth cookie, returning the
session to the unauthenticated state (authHandler resolves no credential
afterwards); the credential store is left untouched, so the access
credentials remain resolvable by lookup exactly as before. -/
theorem serveLogout_clears_cookie_only (st : ServerState) :
    (serveLogout st).cookie = none
    ∧ authHandlerLookup (serveLogout st) = none
    ∧ (∀ t, getCredentials (serveLogout st).store t = getCredentials st.store t)
    ∧ (serveLogout st).consumer = st.consumer :=
  ⟨rfl, rfl, fun _ => rfl, rfl⟩

/-- A successful store lookup returns a credential whose token field is the
key that was looked up. -/
theorem getCredentials_token (s : Store) (t : String) (c : Credentials)
    (h : getCredentials s t = some c) : c.token = t := by
  unfold getCredentials at h
  cases hst : s t with
  | none => rw [hst] at h; simp at h
  | some sec =>
      rw [hst] at h
      simp at h
      rw [← h]

/-- Counterexample to C3 as stated: with temporary credential ("T", "S")
pending and an exchange that fails, serveOAuthCallback surfaces the
upstream error but the temporary credential is no longer resolvable in the
store, contradicting the claim that the flow remains pending with T
resolvable for a retry. -/
theorem callback_failure_counterexample :
    ((serveOAuthCallback (fun _ _ => Except.error "boom")
        ⟨putCredentials Store.empty ⟨"T", "S"⟩, none, ⟨"ck", "cs"⟩⟩ "T" "v").2
      = CallbackResult.upstreamError "Error getting request token, boom")
    ∧ getCredentials
        (serveOAuthCallback (fun _ _ => Except.error "boom")
          ⟨putCredentials Store.empty ⟨"T", "S"⟩, none, ⟨"ck", "cs"⟩⟩ "T" "v").1.store "T"
      = none := by
  constructor
  · simp [serveOAuthCallback, getCredentials, putCredentials, deleteCredentials]
  · simp [serveOAuthCallback, getCredentials, putCredentials, deleteCredentials]

/-- C3 amended: when the verifier exchange fails upstream, the error is
surfaced to the caller, but the temporary credential was deleted before the
exchange, so it is no longer resolvable in the store and a retry of
complete with the same token fails with UnknownToken; the caller must
restart the flow from the beginning. -/
theorem callback_failure_surfaces_and_evicts
    (exchange : Credentials → String → Except String Credentials)
    (st : ServerState) (T v : String) (tempCred : Credentials) (e : String)
    (hget : getCredentials st.store T = some tempCred)
    (hex : exchange tempCred v = Except.error e) :
    (serveOAuthCallback exchange st T v).2
        = CallbackResult.upstreamError ("Error getting request token, " ++ e)
    ∧ getCredentials (serveOAuthCallback exchange st T v).1.store T = none
    ∧ ∀ v₂, (serveOAuthCallback exchange (serveOAuthCallback exchange st T v).1 T v₂).2
        = CallbackResult.unknownToken := by
  have htok := getCredentials_token st.store T tempCred hget
  have hstate : serveOAuthCallback exchange st T v
      = ({ st with store := deleteCredentials st.store tempCred.token },
         CallbackResult.upstreamError ("Error getting request token, " ++ e)) := by
    simp [serveOAuthCallback, hget, hex]
  refine ⟨?_, ?_, ?_⟩
  · rw [hstate]
  · rw [hstate]
    simp [getCredentials, deleteCredentials, htok]
  · intro v₂
    rw [hstate]
    simp [serveOAuthCallback, getCredentials, deleteCredentials, htok]

/-- Witness for callback_failure_surfaces_and_evicts at concrete inputs. -/
theorem callback_failure_surfaces_and_evicts_witness :
    ((serveOAuthCallback (fun _ _ => Except.error "err1")
        ⟨putCredentials Store.empty ⟨"P", "Q"⟩, none, ⟨"ck", "cs"⟩⟩ "P" "v").2
      = CallbackResult.upstreamError "Error getting request token, err1")
    ∧ getCredentials
        (serveOAuthCallback (fun _ _ => Except.error "err1")
          ⟨putCredentials Store.empty ⟨"P", "Q"⟩, none, ⟨"ck", "cs"⟩⟩ "P" "v").1.store "P"
      = none
    ∧ ∀ v₂, (serveOAuthCallback (fun _ _ => Except.error "err1")
        (serveOAuthCallback (fun _ _ => Except.error "err1")
          ⟨putCredentials Store.empty ⟨"P", "Q"⟩, none, ⟨"ck", "cs"⟩⟩ "P" "v").1 "P" v₂).2
      = CallbackResult.unknownToken :=
  callback_failure_surfaces_and_evicts (fun _ _ => Except.error "err1")
    ⟨putCredentials Store.empty ⟨"P", "Q"⟩, none, ⟨"ck", "cs"⟩⟩ "P" "v" ⟨"P", "Q"⟩ "err1"
    (by decide) rfl

/-- C1: serveOAuthCallback rejects with UnknownToken exactly when the token
is not pending in the store — for every verifier, so the store lookup and
not the verifier decides acceptance; and after a successful complete that
consumed T and was granted a distinct access token, a second complete with
the same T is rejected with UnknownToken (one-time use). -/
theorem complete_unknownToken_iff
    (exchange : Credentials → String → Except String Credentials)
    (st : ServerState) (T v : String) :
    ((serveOAuthCallback exchange st T v).2 = CallbackResult.unknownToken
      ↔ getCredentials st.store T = none)
    ∧ (∀ tempCred tokenCred,
        getCredentials st.store T = some tempCred →
        exchange tempCred v = Except.ok tokenCred →
        tokenCred.token ≠ T →
        ∀ v₂, (serveOAuthCallback exchange (serveOAuthCallback exchange st T v).1 T v₂).2
          = CallbackResult.unknownToken) := by
  constructor
  · cases hget : getCredentials st.store T with
    | none => simp [serveOAuthCallback, hget]
    | some tempCred =>
        cases hex : exchange tempCred v with
        | error e => simp [serveOAuthCallback, hget, hex]
        | ok tokenCred => simp [serveOAuthCallback, hget, hex]
  · intro tempCred tokenCred hget hex hne v₂
    have htok := getCredentials_token st.store T tempCred hget
    have hstate : (serveOAuthCallback exchange st T v).1
        = { st with store := putCredentials (deleteCredentials st.store tempCred.token) tokenCred,
                    cookie := some tokenCred.token } := by
      simp [serveOAuthCallback, hget, hex]
    rw [hstate]
    simp [serveOAuthCallback, getCredentials, putCredentials, deleteCredentials, htok,
      hne.symm]

/-- Witness for complete_unknownToken_iff at concrete inputs: the granted
access token "A" differs from the consumed temporary token "T". -/
theorem complete_unknownToken_iff_witness :
    (((serveOAuthCallback (fun _ _ => Except.ok ⟨"A", "AS"⟩)
        ⟨putCredentials Store.empty ⟨"T", "S"⟩, none, ⟨"ck", "cs"⟩⟩ "T" "v").2
        = CallbackResult.unknownToken)
      ↔ getCredentials (putCredentials Store.empty ⟨"T", "S"⟩) "T" = none)
    ∧ (serveOAuthCallback (fun _ _ => Except.ok ⟨"A", "AS"⟩)
        (serveOAuthCallback (fun _ _ => Except.ok ⟨"A", "AS"⟩)
          ⟨putCredentials Store.empty ⟨"T", "S"⟩, none, ⟨"ck", "cs"⟩⟩ "T" "v").1 "T" "v2").2
      = CallbackResult.unknownToken :=
  have h := complete_unknownToken_iff (fun _ _ => Except.ok ⟨"A", "AS"⟩)
    ⟨putCredentials Store.empty ⟨"T", "S"⟩, none, ⟨"ck", "cs"⟩⟩ "T" "v"
  ⟨h.1, h.2 ⟨"T", "S"⟩ ⟨"A", "AS"⟩ (by decide) rfl (by decide) "v2"⟩

/-- listStarts holds of a list followed by anything. -/
theorem listStarts_append (n s : List Char) : listStarts n (n ++ s) = true := by
  induction n with
  | nil => rfl
  | cons a as ih => simp [listStarts, ih]

/-- listHasSub is preserved by prepending input. -/
theorem listHasSub_append_left (n t p : List Char)
    (h : listHasSub n t = true) : listHasSub n (p ++ t) = true := by
  induction p with
  | nil => simpa
  | cons c cs ih => simp [listHasSub, ih]

/-- A list occurs in itself followed by anything. -/
theorem listHasSub_self (n s : List Char) : listHasSub n (n ++ s) = true := by
  cases n with
  | nil =>
      cases s with
      | nil => rfl
      | cons c cs =>
          simp only [listHasSub, List.nil_append, Bool.or_eq_true]
          exact Or.inl rfl
  | cons a as =>
      simp only [listHasSub, List.cons_append, Bool.or_eq_true]
      exact Or.inl (listStarts_append (a :: as) s)

/-- A list occurs in itself. -/
theorem listHasSub_refl (n : List Char) : listHasSub n n = true := by
  simpa using listHasSub_self n []

/-- The error message built for a non-200 response contains the decimal
rendering of the status code and the exact response body as substrings. -/
theorem errMsg_carries_status_and_body (url : String) (status : Nat) (body : String) :
    containsSub (toString status) (httpStatusErrMsg url status body) = true
    ∧ containsSub body (httpStatusErrMsg url status body) = true := by
  unfold httpStatusErrMsg containsSub
  simp only [String.data_append, List.append_assoc]
  constructor
  · exact listHasSub_append_left _ _ _ (listHasSub_append_left _ _ _
      (listHasSub_append_left _ _ _ (listHasSub_self _ _)))
  · exact listHasSub_append_left _ _ _ (listHasSub_append_left _ _ _
      (listHasSub_append_left _ _ _ (listHasSub_append_left _ _ _
        (listHasSub_append_left _ _ _ (listHasSub_refl _)))))

/-- Counterexample to C6 as stated: in the CLI variant, a response with
status 500 and body "boom" yields the error "boom", which does not contain
the digits of the status; indeed a 404 with the same body yields the very
same error, so the error cannot report the numeric status. -/
theorem callAPI_error_counterexample :
    callAPIResult ⟨"u", 500, "boom"⟩ = Except.error "boom"
    ∧ containsSub "500" "boom" = false
    ∧ callAPIResult ⟨"u", 404, "boom"⟩ = Except.error "boom" :=
  ⟨rfl, by decide, rfl⟩

/-- C6 amended: on any non-200 response the server variant's
decodeResponse returns an HTTPStatusError whose message carries both the
numeric status and the exact body, with no JSON decoding and no retry; the
CLI variant's callAPI_ also fails without decoding or retrying, but its
error carries only the exact body, not the numeric status. -/
theorem nonOk_response_errors (resp : Response) (h : resp.status ≠ 200) :
    decodeResponse resp
      = DecodeResult.httpStatusError (httpStatusErrMsg resp.url resp.status resp.body)
    ∧ containsSub (toString resp.status) (httpStatusErrMsg resp.url resp.status resp.body) = true
    ∧ containsSub resp.body (httpStatusErrMsg resp.url resp.status resp.body) = true
    ∧ callAPIResult resp = Except.error resp.body := by
  refine ⟨?_, (errMsg_carries_status_and_body _ _ _).1,
    (errMsg_carries_status_and_body _ _ _).2, ?_⟩
  · simp [decodeResponse, h]
  · simp [callAPIResult, h]

/-- Witness for nonOk_response_errors at a concrete 500 response. -/
theorem nonOk_response_errors_witness :
    decodeResponse ⟨"u", 500, "boom"⟩
      = DecodeResult.httpStatusError (httpStatusErrMsg "u" 500 "boom")
    ∧ containsSub (toString 500) (httpStatusErrMsg "u" 500 "boom") = true
    ∧ containsSub "boom" (httpStatusErrMsg "u" 500 "boom") = true
    ∧ callAPIResult ⟨"u", 500, "boom"⟩ = Except.error "boom" :=
  nonOk_response_errors ⟨"u", 500, "boom"⟩ (by decide)

/-- C7: on a status-200 response decodeResponse decodes the body as JSON
into the generic structure: any body the decoder accepts yields its value,
a body the decoder rejects yields a decode error; concretely the body
consisting of the object with fields id = "1" and text = "hi" decodes to
exactly that mapping, and the malformed body starting with an unterminated
brace yields the decode error. -/
theorem ok_response_decodes (resp : Response) (h : resp.status = 200) :
    (∀ j, jsonDecode resp.body = some j → decodeResponse resp = DecodeResult.ok j)
    ∧ (jsonDecode resp.body = none → decodeResponse resp = DecodeResult.decodeError)
    ∧ decodeResponse ⟨resp.url, 200, "\x7b\"id\":\"1\",\"text\":\"hi\"\x7d"⟩
        = DecodeResult.ok (Json.obj [("id", Json.str "1"), ("text", Json.str "hi")])
    ∧ decodeResponse ⟨resp.url, 200, "\x7bnot json"⟩ = DecodeResult.decodeError := by
  refine ⟨?_, ?_, rfl, rfl⟩
  · intro j hj
    simp [decodeResponse, h, hj]
  · intro hj
    simp [decodeResponse, h, hj]

/-- Witness for ok_response_decodes at concrete 200 responses. -/
theorem ok_response_decodes_witness :
    decodeResponse ⟨"u", 200, "\x7b\x7d"⟩ = DecodeResult.ok (Json.obj [])
    ∧ decodeResponse ⟨"u", 200, "\x7b\"id\":\"1\",\"text\":\"hi\"\x7d"⟩
        = DecodeResult.ok (Json.obj [("id", Json.str "1"), ("text", Json.str "hi")])
    ∧ decodeResponse ⟨"u", 200, "\x7bnot json"⟩ = DecodeResult.decodeError :=
  have h := ok_response_decodes ⟨"u", 200, "\x7b\x7d"⟩ rfl
  ⟨h.1 (Json.obj []) rfl, h.2.2.1, h.2.2.2⟩

/-- PlurkCredentials mirrors the CLI configuration-file object: consumer
key/secret and optionally a previously obtained access token/secret. -/
structure PlurkCredentials where
  consumerToken : String
  consumerSecret : String
  accessToken : String
  accessSecret : String
deriving DecidableEq, Repr

/-- Outcome of doAuth: either the Go function returns a (token, error)
pair, or log.Fatal terminates the process. -/
inductive DoAuthOutcome where
  | ret (token : Credentials) (err : Option String)
  | fatalExit (msg : String)
deriving DecidableEq, Repr

/-- doAuth (plurk CLI): print the authorization URL, read a PIN from the
user, and exchange the request token and PIN for an access token via
oauthClient.RequestToken (modelled by exchange); on exchange failure the
process is terminated by log.Fatal, otherwise the access token is returned
together with a nil error. -/
def doAuth (exchange : Credentials → String → Except String Credentials)
    (pinCode : String) (requestToken : Credentials) : DoAuthOutcome :=
  match exchange requestToken pinCode with
  | Except.ok accessToken => DoAuthOutcome.ret accessToken none
  | Except.error e => DoAuthOutcome.fatalExit ("failed to request token:" ++ e)

/-- Outcome of GetAccessToken as seen by main: a normal return of
(token, authorized) together with the possibly updated configuration
value, an error return, or process termination from within doAuth. -/
inductive GATOutcome where
  | ok (token : Credentials) (authorized : Bool) (cred : PlurkCredentials)
  | err (e : String) (cred : PlurkCredentials)
  | fatalExit (msg : String)
deriving DecidableEq, Repr

/-- GetAccessToken (plurk CLI).  It first installs the consumer key and
secret from the configuration into oauthClient.Credentials (returned as
the first component).  If the configuration already holds a non-empty
access token and secret, they are returned with authorized = false and no
handshake is performed; otherwise temporary credentials are requested
(tempResult models RequestTemporaryCredentials, with its error branch) and
exchanged via doAuth, and on success the access token and secret are
written back into the configuration value and authorized = true. -/
def GetAccessToken (tempResult : Except String Credentials)
    (exchange : Credentials → String → Except String Credentials)
    (pinCode : String) (cred : PlurkCredentials) : Credentials × GATOutcome :=
  let clientCreds : Credentials := ⟨cred.consumerToken, cred.consumerSecret⟩
  if cred.accessToken ≠ "" ∧ cred.accessSecret ≠ "" then
    (clientCreds, GATOutcome.ok ⟨cred.accessToken, cred.accessSecret⟩ false cred)
  else
    match tempResult with
    | Except.error e => (clientCreds, GATOutcome.err e cred)
    | Except.ok requestToken =>
        match doAuth exchange pinCode requestToken with
        | DoAuthOutcome.fatalExit m => (clientCreds, GATOutcome.fatalExit m)
        | DoAuthOutcome.ret _ (some e) => (clientCreds, GATOutcome.err e cred)
        | DoAuthOutcome.ret token none =>
            (clientCreds,
             GATOutcome.ok token true
               { cred with accessToken := token.token, accessSecret := token.secret })

/-- File-persistence decision of the CLI's main after GetAccessToken: the
configuration file is rewritten with the updated configuration value
exactly when GetAccessToken reported authorized = true. -/
def mainPersist : GATOutcome → Option PlurkCredentials
  | GATOutcome.ok _ authorized cred => if authorized then some cred else none
  | _ => none

/-- C9: CLI credential persistence.  With a non-empty stored access token
and secret, GetAccessToken returns them with authorized = false, performs
no handshake (the result does not depend on the upstream stubs or the
PIN), and the file is not rewritten; with them absent, a successful
handshake returns the newly obtained token with authorized = true, writes
the token and secret back into the configuration value, and the file is
rewritten with that updated value. -/
theorem GetAccessToken_persistence
    (tempResult tempResult' : Except String Credentials)
    (exch exch' : Credentials → String → Except String Credentials)
    (pin pin' : String) (cred : PlurkCredentials) :
    (cred.accessToken ≠ "" → cred.accessSecret ≠ "" →
      GetAccessToken tempResult exch pin cred
        = (⟨cred.consumerToken, cred.consumerSecret⟩,
           GATOutcome.ok ⟨cred.accessToken, cred.accessSecret⟩ false cred)
      ∧ GetAccessToken tempResult exch pin cred = GetAccessToken tempResult' exch' pin' cred
      ∧ mainPersist (GetAccessToken tempResult exch pin cred).2 = none)
    ∧ (∀ requestToken token,
        (cred.accessToken = "" ∨ cred.accessSecret = "") →
        tempResult = Except.ok requestToken →
        exch requestToken pin = Except.ok token →
        GetAccessToken tempResult exch pin cred
          = (⟨cred.consumerToken, cred.consumerSecret⟩,
             GATOutcome.ok token true
               { cred with accessToken := token.token, accessSecret := token.secret })
        ∧ mainPersist (GetAccessToken tempResult exch pin cred).2
            = some { cred with accessToken := token.token, accessSecret := token.secret }) := by
  constructor
  · intro h1 h2
    refine ⟨?_, ?_, ?_⟩ <;> simp [GetAccessToken, h1, h2, mainPersist]
  · intro requestToken token hempty htemp hex
    have hcond : ¬(cred.accessToken ≠ "" ∧ cred.accessSecret ≠ "") := by
      rcases hempty with h | h <;> simp [h]
    subst htemp
    constructor <;> simp [GetAccessToken, hcond, doAuth, hex, mainPersist]

/-- Witness for GetAccessToken_persistence at concrete configurations. -/
theorem GetAccessToken_persistence_witness :
    (GetAccessToken (Except.error "down") (fun _ _ => Except.error "down") "p"
        ⟨"ck", "cs", "at", "as"⟩
      = (⟨"ck", "cs"⟩, GATOutcome.ok ⟨"at", "as"⟩ false ⟨"ck", "cs", "at", "as"⟩)
      ∧ GetAccessToken (Except.error "down") (fun _ _ => Except.error "down") "p"
          ⟨"ck", "cs", "at", "as"⟩
        = GetAccessToken (Except.ok ⟨"rt", "rs"⟩) (fun _ _ => Except.ok ⟨"A", "B"⟩) "q"
            ⟨"ck", "cs", "at", "as"⟩
      ∧ mainPersist (GetAccessToken (Except.error "down") (fun _ _ => Except.error "down") "p"
          ⟨"ck", "cs", "at", "as"⟩).2 = none)
    ∧ (GetAccessToken (Except.ok ⟨"rt", "rs"⟩) (fun _ _ => Except.ok ⟨"A", "B"⟩) "p"
          ⟨"ck", "cs", "", ""⟩
        = (⟨"ck", "cs"⟩, GATOutcome.ok ⟨"A", "B"⟩ true ⟨"ck", "cs", "A", "B"⟩)
      ∧ mainPersist (GetAccessToken (Except.ok ⟨"rt", "rs"⟩) (fun _ _ => Except.ok ⟨"A", "B"⟩) "p"
          ⟨"ck", "cs", "", ""⟩).2 = some ⟨"ck", "cs", "A", "B"⟩) :=
  ⟨(GetAccessToken_persistence (Except.error "down") (Except.ok ⟨"rt", "rs"⟩)
      (fun _ _ => Except.error "down") (fun _ _ => Except.ok ⟨"A", "B"⟩) "p" "q"
      ⟨"ck", "cs", "at", "as"⟩).1 (by decide) (by decide),
   (GetAccessToken_persistence (Except.ok ⟨"rt", "rs"⟩) (Except.ok ⟨"rt", "rs"⟩)
      (fun _ _ => Except.ok ⟨"A", "B"⟩) (fun _ _ => Except.ok ⟨"A", "B"⟩) "p" "p"
      ⟨"ck", "cs", "", ""⟩).2 ⟨"rt", "rs"⟩ ⟨"A", "B"⟩ (Or.inl rfl) rfl rfl⟩

/-- C10: doAuth never returns with a non-nil error — an exchange failure
terminates the process via log.Fatal instead — so the error branch that
GetAccessToken runs after doAuth is unreachable, and when the
temporary-credential request succeeded GetAccessToken never returns an
error outcome to its caller. -/
theorem doAuth_never_errors
    (exchange : Credentials → String → Except String Credentials)
    (pin : String) (requestToken : Credentials) :
    (∀ token err, doAuth exchange pin requestToken = DoAuthOutcome.ret token err → err = none)
    ∧ (∀ (cred : PlurkCredentials) (e : String) (c' : PlurkCredentials),
        (GetAccessToken (Except.ok requestToken) exchange pin cred).2 ≠ GATOutcome.err e c') := by
  constructor
  · intro token err h
    unfold doAuth at h
    cases hex : exchange requestToken pin with
    | ok c => rw [hex] at h; simp at h; exact h.2.symm
    | error e => rw [hex] at h; simp at h
  · intro cred e c'
    by_cases hc : cred.accessToken ≠ "" ∧ cred.accessSecret ≠ ""
    · simp [GetAccessToken, hc]
    · cases hex : exchange requestToken pin with
      | ok c => simp [GetAccessToken, hc, doAuth, hex]
      | error e2 => simp [GetAccessToken, hc, doAuth, hex]

/-- Witness for doAuth_never_errors at concrete inputs. -/
theorem doAuth_never_errors_witness :
    (doAuth (fun _ _ => Except.ok ⟨"A", "B"⟩) "p" ⟨"rt", "rs"⟩
        = DoAuthOutcome.ret ⟨"A", "B"⟩ none → (none : Option String) = none)
    ∧ (GetAccessToken (Except.ok ⟨"rt", "rs"⟩) (fun _ _ => Except.ok ⟨"A", "B"⟩) "p"
        ⟨"ck", "cs", "", ""⟩).2 ≠ GATOutcome.err "e" ⟨"ck", "cs", "", ""⟩ :=
  ⟨(doAuth_never_errors (fun _ _ => Except.ok ⟨"A", "B"⟩) "p" ⟨"rt", "rs"⟩).1 ⟨"A", "B"⟩ none,
   (doAuth_never_errors (fun _ _ => Except.ok ⟨"A", "B"⟩) "p" ⟨"rt", "rs"⟩).2
     ⟨"ck", "cs", "", ""⟩ "e" ⟨"ck", "cs", "", ""⟩⟩

/-- Exhaustive description of GetAccessToken's results: the installed
client credentials are always the configuration's consumer pair, and the
outcome is reuse of the stored pair, an error with the configuration
unchanged, process termination, or a fresh token written back into the
access fields of the configuration. -/
theorem GetAccessToken_cases (tempResult : Except String Credentials)
    (exchange : Credentials → String → Except String Credentials)
    (pin : String) (cred : PlurkCredentials) :
    (GetAccessToken tempResult exchange pin cred).1
        = ⟨cred.consumerToken, cred.consumerSecret⟩
    ∧ ((GetAccessToken tempResult exchange pin cred).2
          = GATOutcome.ok ⟨cred.accessToken, cred.accessSecret⟩ false cred
      ∨ (∃ e, (GetAccessToken tempResult exchange pin cred).2 = GATOutcome.err e cred)
      ∨ (∃ m, (GetAccessToken tempResult exchange pin cred).2 = GATOutcome.fatalExit m)
      ∨ (∃ token, (GetAccessToken tempResult exchange pin cred).2
          = GATOutcome.ok token true
              { cred with accessToken := token.token, accessSecret := token.secret })) := by
  by_cases hc : cred.accessToken ≠ "" ∧ cred.accessSecret ≠ ""
  · exact ⟨by simp [GetAccessToken, hc], Or.inl (by simp [GetAccessToken, hc])⟩
  · cases tempResult with
    | error e =>
        exact ⟨by simp [GetAccessToken, hc],
          Or.inr (Or.inl ⟨e, by simp [GetAccessToken, hc]⟩)⟩
    | ok rt =>
        cases hda : doAuth exchange pin rt with
        | fatalExit m =>
            exact ⟨by simp [GetAccessToken, hc, hda],
              Or.inr (Or.inr (Or.inl ⟨m, by simp [GetAccessToken, hc, hda]⟩))⟩
        | ret tok err =>
            cases err with
            | none =>
                exact ⟨by simp [GetAccessToken, hc, hda],
                  Or.inr (Or.inr (Or.inr ⟨tok, by simp [GetAccessToken, hc, hda]⟩))⟩
            | some e =>
                exfalso
                unfold doAuth at hda
                cases hex : exchange rt pin <;> rw [hex] at hda <;> simp at hda

/-- C8: consumer identity immutability.  Every modelled operation of the
authorization flow leaves the process-wide consumer credentials unchanged:
the server handlers preserve the consumer field of the state, and in the
CLI GetAccessToken installs into the client exactly the consumer pair read
from the configuration at startup and never alters the consumer fields of
the configuration value it returns, in any outcome. -/
theorem consumer_identity_immutable
    (requestTemp : Except String Credentials) (authURL : Credentials → String)
    (exchange : Credentials → String → Except String Credentials)
    (st : ServerState) (T v : String)
    (tempResult : Except String Credentials) (pin : String) (cred : PlurkCredentials) :
    (serveSignin requestTemp authURL st).1.consumer = st.consumer
    ∧ (serveAuthorize requestTemp authURL st).1.consumer = st.consumer
    ∧ (serveOAuthCallback exchange st T v).1.consumer = st.consumer
    ∧ (serveLogout st).consumer = st.consumer
    ∧ (GetAccessToken tempResult exchange pin cred).1
        = ⟨cred.consumerToken, cred.consumerSecret⟩
    ∧ (∀ token auth cred',
        (GetAccessToken tempResult exchange pin cred).2 = GATOutcome.ok token auth cred' →
        cred'.consumerToken = cred.consumerToken ∧ cred'.consumerSecret = cred.consumerSecret)
    ∧ (∀ e cred',
        (GetAccessToken tempResult exchange pin cred).2 = GATOutcome.err e cred' →
        cred' = cred) := by
  refine ⟨?_, ?_, ?_, rfl, (GetAccessToken_cases tempResult exchange pin cred).1, ?_, ?_⟩
  · cases requestTemp <;> rfl
  · cases requestTemp <;> rfl
  · unfold serveOAuthCallback
    cases hget : getCredentials st.store T with
    | none => rfl
    | some tempCred =>
        cases hex : exchange tempCred v with
        | ok c => simp [hex]
        | error e => simp [hex]
  · intro token auth cred' h
    rcases (GetAccessToken_cases tempResult exchange pin cred).2 with
      h1 | ⟨e, h1⟩ | ⟨m, h1⟩ | ⟨tok, h1⟩ <;> rw [h1] at h
    · injection h with _ _ h3
      rw [← h3]
      exact ⟨rfl, rfl⟩
    · simp at h
    · simp at h
    · injection h with _ _ h3
      rw [← h3]
      exact ⟨rfl, rfl⟩
  · intro e cred' h
    rcases (GetAccessToken_cases tempResult exchange pin cred).2 with
      h1 | ⟨e2, h1⟩ | ⟨m, h1⟩ | ⟨tok, h1⟩ <;> rw [h1] at h
    · simp at h
    · injection h with _ h2
      exact h2.symm
    · simp at h
    · simp at h

/-- Witness for consumer_identity_immutable at concrete inputs. -/
theorem consumer_identity_immutable_witness :
    (serveLogout ⟨Store.empty, none, ⟨"k", "s"⟩⟩).consumer = (⟨"k", "s"⟩ : Credentials)
    ∧ (GetAccessToken (Except.ok ⟨"rt", "rs"⟩) (fun _ _ => Except.ok ⟨"A", "B"⟩) "p"
        ⟨"ck", "cs", "", ""⟩).1 = (⟨"ck", "cs"⟩ : Credentials)
    ∧ ("ck" = "ck" ∧ "cs" = "cs") :=
  have h := consumer_identity_immutable (Except.ok ⟨"rt", "rs"⟩) (fun _ => "url")
    (fun _ _ => Except.ok ⟨"A", "B"⟩) ⟨Store.empty, none, ⟨"k", "s"⟩⟩ "T" "v"
    (Except.ok ⟨"rt", "rs"⟩) "p" ⟨"ck", "cs", "", ""⟩
  ⟨h.2.2.2.1, h.2.2.2.2.1,
   h.2.2.2.2.2.1 ⟨"A", "B"⟩ true ⟨"ck", "cs", "A", "B"⟩ rfl⟩

end OAuthDemo
